import Mathlib

/-!
Shallow embedding of the boardgame-rag-agent repository
(src/document_processor.py, src/vector_store.py, src/rag_agent.py).

External collaborators (langchain TextLoader, Chroma nearest-neighbour
search, the chat model) are abstracted as parameters of an `Env`
structure; the orchestration logic of the repository is embedded
faithfully, with Python exceptions modelled by `Except` and the mutable
`VectorStoreManager` object modelled by explicit state passing over
`MState`.  Distance scores (Python floats) are modelled as rationals;
the `float('inf')` sentinel of `query_all_games` is modelled as `⊤` in
`WithTop ℚ`.
-/

namespace BoardgameRAG

/-- A langchain `Document`: page content plus a string-keyed metadata dict
(modelled as an insertion-ordered association list, as Python dicts are). -/
structure Document where
  page_content : String
  metadata : List (String × String)
deriving Repr, DecidableEq

/-- A `(document, distance score)` pair as returned by
`Chroma.similarity_search_with_score`. -/
abbrev ScoredDoc := Document × ℚ

/-- Python exceptions that the embedded code can raise. -/
inductive PyError where
  | keyError (key : String)
  | valueError (msg : String)
deriving Repr, DecidableEq

/-- The mutable state of a `VectorStoreManager` instance together with the
backing chroma store: `persisted` is the on-disk collection store (name →
stored documents, in creation order), `cache` is the in-memory
`self.vectorstore` dict mapping a game name to its loaded `Chroma` handle
(handles are identified by a `Nat` id so that "the same handle" is
expressible), and `nextId` feeds fresh handle ids. -/
structure MState where
  persisted : List (String × List Document)
  cache : List (String × Nat)
  nextId : Nat
deriving Repr, DecidableEq

/-- The external collaborators: `oracle game query k` is the vector store's
nearest-neighbour search for the collection named `game`
(`Chroma.similarity_search_with_score`), `llm game context question` is the
chat model invoked on the fixed prompt template rendered with those three
slot values, and `deleteErr game` says whether the chroma backend raises
while deleting that collection. -/
structure Env where
  oracle : String → String → Nat → List ScoredDoc
  llm : String → String → String → String
  deleteErr : String → Bool

/-! ## document_processor.py -/

/-- Embedding of `os.path.basename`: the suffix of the path after the last `/`. -/
def basename (p : String) : String :=
  String.mk ((p.toList.reverse.takeWhile (fun c => c ≠ '/')).reverse)

/-- Python's `str.strip(chars)`: removes from both ends every character that
occurs in `chars` (a character *set*, not a suffix/prefix string). -/
def pyStrip (s : String) (chars : String) : String :=
  let cs := chars.toList
  String.mk (((s.toList.dropWhile (fun c => cs.contains c)).reverse.dropWhile
    (fun c => cs.contains c)).reverse)

/-- Embedding of `DocumentProcessor.load_documents`: `TextLoader(path).load()` yields one
document whose content is the file's text and whose metadata carries
`source = path`; the method then sets
`doc.metadata['game'] = os.path.basename(path).strip(".txt")`. -/
def load_documents (fileContent : String) (path : String) : List Document :=
  let documents : List Document := [{ page_content := fileContent, metadata := [("source", path)] }]
  documents.map (fun doc =>
    { doc with metadata := doc.metadata ++ [("game", pyStrip (basename path) ".txt")] })

/-- Lookup in a metadata dict. -/
def lookupMeta (key : String) (m : List (String × String)) : Option String :=
  (m.find? (fun p => p.1 == key)).map (fun p => p.2)

/-! ## vector_store.py -/

/-- Names of the persisted collections. -/
def persistedNames (st : MState) : List String := st.persisted.map (fun p => p.1)

/-- Embedding of `VectorStoreManager._collection_exists`: `client.get_collection` succeeds
exactly when a persisted collection of that name exists. -/
def collection_exists (st : MState) (game_name : String) : Bool :=
  (persistedNames st).contains game_name

/-- Membership test `game_name in self.vectorstore`. -/
def cacheHas (st : MState) (game_name : String) : Bool :=
  st.cache.any (fun p => p.1 == game_name)

/-- Lookup `self.vectorstore[game_name]` as an optional lookup. -/
def cacheGet (st : MState) (game_name : String) : Option Nat :=
  (st.cache.find? (fun p => p.1 == game_name)).map (fun p => p.2)

/-- Assignment `self.vectorstore[game_name] = handle`: Python dict assignment (replaces
in place if the key exists, appends otherwise). -/
def cacheSet (st : MState) (game_name : String) (h : Nat) : MState :=
  if cacheHas st game_name then
    { st with cache := st.cache.map (fun p => if p.1 == game_name then (p.1, h) else p) }
  else
    { st with cache := st.cache ++ [(game_name, h)] }

/-- Embedding of `VectorStoreManager.list_collections` (best effort; on success it lists
the persisted collection names). -/
def list_collections (st : MState) : List String := persistedNames st

/-- Number of documents stored for `game_name`
(`vectorstore._collection.count()`). -/
def docCount (st : MState) (game_name : String) : Nat :=
  ((st.persisted.find? (fun p => p.1 == game_name)).map (fun p => p.2.length)).getD 0

/-- Embedding of `VectorStoreManager.load_vectorstore`: raises `ValueError` when no
persisted collection exists; returns the cached handle when already loaded;
otherwise opens the persisted collection under a fresh handle and caches it. -/
def load_vectorstore (st : MState) (game_name : String) : Except PyError (MState × Nat) :=
  if collection_exists st game_name = false then
    .error (.valueError ("No existing collection for " ++ game_name))
  else
    match cacheGet st game_name with
    | some h => .ok (st, h)
    | none =>
        .ok ({ st with
                 cache := st.cache ++ [(game_name, st.nextId)]
                 nextId := st.nextId + 1 }, st.nextId)

/-- Backend `client.delete_collection` of chromadb: raises when the backend fails or
the collection does not exist; on success removes the persisted collection. -/
def client_delete (env : Env) (st : MState) (game_name : String) : Except Unit MState :=
  if env.deleteErr game_name || !(collection_exists st game_name) then
    .error ()
  else
    .ok { st with persisted := st.persisted.filter (fun p => p.1 != game_name) }

/-- Embedding of `VectorStoreManager._delete_collection`: the backend delete and the cache
eviction both sit inside one `try`; any exception is caught and only logged,
so the function never raises, and when the backend delete raises the cache
eviction is skipped and the state is left unchanged. -/
def _delete_collection (env : Env) (st : MState) (game_name : String) : MState :=
  match client_delete env st game_name with
  | .ok st' => { st' with cache := st'.cache.filter (fun p => p.1 != game_name) }
  | .error _ => st

/-- Embedding of `Chroma.from_documents` followed by `self.vectorstore[game_name] = vs`:
persists the documents under the collection name and caches a fresh handle. -/
def from_documents (st : MState) (game_name : String) (documents : List Document) :
    MState × Nat :=
  (cacheSet { st with
                persisted := st.persisted ++ [(game_name, documents)]
                nextId := st.nextId + 1 } game_name st.nextId, st.nextId)

/-- Embedding of `VectorStoreManager.create_vectorstore`: if the collection exists and
`force_rebuild` is false, loads and returns the existing collection; if it
exists and `force_rebuild` is true, deletes it first; otherwise builds the
collection from the documents. -/
def create_vectorstore (env : Env) (st : MState) (game_name : String)
    (documents : List Document) (force_rebuild : Bool := false) :
    Except PyError (MState × Nat) :=
  if collection_exists st game_name then
    if force_rebuild then
      .ok (from_documents (_delete_collection env st game_name) game_name documents)
    else
      load_vectorstore st game_name
  else
    .ok (from_documents st game_name documents)

/-- The `for` loop of `load_all_vectorstores` over a list of collection
names: loads each name that is not already cached. -/
def loadAllAux : MState → List String → Except PyError MState
  | st, [] => .ok st
  | st, g :: gs =>
      if cacheHas st g then loadAllAux st gs
      else
        match load_vectorstore st g with
        | .ok (st', _) => loadAllAux st' gs
        | .error e => .error e

/-- Embedding of `VectorStoreManager.load_all_vectorstores`: loads every listed collection
that is not already cached. -/
def load_all_vectorstores (st : MState) : Except PyError MState :=
  loadAllAux st (list_collections st)

/-- Embedding of `VectorStoreManager.similarity_search`: when the game is not cached it is
loaded only if its collection exists; the subsequent
`self.vectorstore[game_name]` lookup is unguarded and raises `KeyError` when
the handle is still absent; otherwise the handle's
`similarity_search_with_score(query, k)` is delegated to the backend. -/
def similarity_search (env : Env) (st : MState) (game_name : String)
    (query : String) (k : Nat := 3) : Except PyError (MState × List ScoredDoc) := do
  let st ←
    if cacheHas st game_name = false then
      if collection_exists st game_name then
        (load_vectorstore st game_name).map (fun p => p.1)
      else pure st
    else pure st
  match cacheGet st game_name with
  | some _ => .ok (st, env.oracle game_name query k)
  | none => .error (.keyError game_name)

/-- Keys of the in-memory handle dict, in insertion order
(`self.vectorstore.keys()`). -/
def cacheKeys (st : MState) : List String := st.cache.map (fun p => p.1)

/-- The `for` loop of `search_all_games`: runs `similarity_search` for every
listed game and keeps, in iteration order, the games whose result list is
non-empty (`if result:`). -/
def searchGames (env : Env) (query : String) (k : Nat) :
    MState → List String → Except PyError (MState × List (String × List ScoredDoc))
  | st, [] => .ok (st, [])
  | st, g :: gs => do
      let (st', r) ← similarity_search env st g query k
      let (st'', rest) ← searchGames env query k st' gs
      .ok (st'', if r.isEmpty then rest else (g, r) :: rest)

/-- Embedding of `VectorStoreManager.search_all_games`: loads every collection, then maps
each cached game name to its (non-empty) search results. -/
def search_all_games (env : Env) (st : MState) (query : String) (k : Nat := 3) :
    Except PyError (MState × List (String × List ScoredDoc)) := do
  let st' ← load_all_vectorstores st
  searchGames env query k st' (cacheKeys st')

/-! ## rag_agent.py -/

/-- Embedding of `RAGAgent._format_documents`: joins the page contents with the fixed
divider. -/
def _format_documents (documents : List Document) : String :=
  String.intercalate "\n\n--\n\n" (documents.map (fun doc => doc.page_content))

/-- One `{content, metadata, score}` source record of `RAGAgent.query`. -/
structure SourceRec where
  content : String
  metadata : List (String × String)
  score : ℚ
deriving Repr, DecidableEq

/-- A value of the Python result dict built by `RAGAgent.query`. -/
inductive QVal where
  | str (s : String)
  | srcs (l : List SourceRec)
  | pyNone
deriving Repr, DecidableEq

/-- Embedding of `RAGAgent.query`: retrieves with `similarity_search`; on an empty result
returns the canned answer dict (note: no `game_name` key in that branch)
without invoking the chat model; otherwise formats the context, invokes the
chat model once, and packages `answer`/`game_name` (and `sources` when
requested).  The last component counts the chat-model invocations. -/
def query (env : Env) (st : MState) (game_name question : String) (k : Nat := 4)
    (return_resources : Bool := true) :
    Except PyError (MState × List (String × QVal) × Nat) := do
  let (st', results) ← similarity_search env st game_name question k
  if results.isEmpty then
    .ok (st', [("answer", QVal.str ("No relevant documents found for " ++ game_name)),
               ("sources", if return_resources then QVal.srcs [] else QVal.pyNone)], 0)
  else
    let documents := results.map (fun p => p.1)
    let scores := results.map (fun p => p.2)
    let context := _format_documents documents
    let response := env.llm game_name context question
    let base := [("answer", QVal.str response), ("game_name", QVal.str game_name)]
    let result :=
      if return_resources then
        base ++ [("sources", QVal.srcs ((documents.zip scores).map
          (fun p => { content := p.1.page_content, metadata := p.1.metadata, score := p.2 })))]
      else base
    .ok (st', result, 1)

/-- One entry of the list built by `RAGAgent.query_all_games`; the
`float('inf')` fallback of `result[0][1] if result else float('inf')` is
modelled by `⊤`. -/
structure GameResult where
  game_name : String
  answer : String
  relevance_score : WithTop ℚ
deriving DecidableEq

/-- The dict appended for one game inside the loop of
`RAGAgent.query_all_games`. -/
def mkGameResult (env : Env) (question : String) (game_name : String)
    (result : List ScoredDoc) : GameResult :=
  { game_name := game_name
    answer := env.llm game_name (_format_documents (result.map (fun p => p.1))) question
    relevance_score :=
      match result with
      | [] => ⊤
      | (_, s) :: _ => (s : WithTop ℚ) }

/-- Insertion of one element into a sorted list by `relevance_score`,
placing it before later elements with an equal score (the stable placement
that Python's `list.sort` guarantees). -/
def sortInsert (a : GameResult) : List GameResult → List GameResult
  | [] => [a]
  | b :: bs =>
      if a.relevance_score ≤ b.relevance_score then a :: b :: bs
      else b :: sortInsert a bs

/-- Embedding of `responses.sort(key=lambda x: x["relevance_score"])`: a stable ascending
sort by `relevance_score`. -/
def pySort : List GameResult → List GameResult
  | [] => []
  | a :: as => sortInsert a (pySort as)

/-- Embedding of `RAGAgent.query_all_games`: fans the question out with
`search_all_games` — the `k` parameter is accepted but not forwarded, so the
per-game retrieval runs with `search_all_games`'s default `k = 3` — builds
one answer per returned game, and sorts the responses ascending by
`relevance_score`. -/
def query_all_games (env : Env) (st : MState) (question : String) (k : Nat := 4) :
    Except PyError (MState × List GameResult) := do
  let (st', all_results) ← search_all_games env st question
  let responses := all_results.map (fun p => mkGameResult env question p.1 p.2)
  .ok (st', pySort responses)

/-- The best (lowest) distance score among a list of retrieved chunks
(`⊤` for an empty list). -/
def bestScore (result : List ScoredDoc) : WithTop ℚ :=
  (result.map (fun p => ((p.2 : ℚ) : WithTop ℚ))).foldr min ⊤

/-- The association list that `search_all_games` returns once every
collection is cached: each cached game with non-empty backend results, in
cache order. -/
def allNonEmpty (env : Env) (q : String) (k : Nat) (st : MState) :
    List (String × List ScoredDoc) :=
  (cacheKeys st).filterMap (fun g =>
    if (env.oracle g q k).isEmpty then none else some (g, env.oracle g q k))

/-! ## Concrete fixtures (small rulebook store used by the witnesses) -/

def docA : Document := { page_content := "Win by scoring the most points.", metadata := [("game", "A")] }

def docB : Document := { page_content := "Roll the dice to move.", metadata := [("game", "B")] }

/-- A store with games `A` and `B` persisted and nothing cached. -/
def stW : MState := { persisted := [("A", [docA]), ("B", [docB])], cache := [], nextId := 0 }

/-- State `stW` after both collections have been loaded. -/
def stWloaded : MState := { persisted := [("A", [docA]), ("B", [docB])], cache := [("A", 0), ("B", 1)], nextId := 2 }

/-- State `stW` after only `B` has been loaded. -/
def stWB : MState := { persisted := [("A", [docA]), ("B", [docB])], cache := [("B", 0)], nextId := 1 }

/-- Collaborators where only game `A` has matching chunks. -/
def envW : Env :=
  { oracle := fun g _ _ => if g = "A" then [(docA, 1)] else []
    llm := fun g c q => g ++ " | " ++ c ++ " | " ++ q
    deleteErr := fun _ => false }

/-- Collaborators where game `A` has best score 5 and game `B` best score 1. -/
def envS : Env :=
  { oracle := fun g _ _ =>
      if g = "A" then [(docA, 5)] else if g = "B" then [(docB, 1), (docB, 2)] else []
    llm := fun g _ _ => g
    deleteErr := fun _ => false }

/-- Collaborators whose backend delete always raises. -/
def envFail : Env :=
  { oracle := fun _ _ _ => [], llm := fun _ _ _ => "", deleteErr := fun _ => true }

/-- A store with one persisted game whose handle is cached. -/
def stCached : MState := { persisted := [("chess", [docA])], cache := [("chess", 0)], nextId := 1 }

/-! ## Helper lemmas -/

lemma cacheHas_iff_mem_keys (st : MState) (g : String) :
    cacheHas st g = true ↔ g ∈ cacheKeys st := by
  simp only [cacheHas, cacheKeys, List.any_eq_true, List.mem_map]
  constructor
  · rintro ⟨p, hp, hbeq⟩
    exact ⟨p, hp, beq_iff_eq.mp hbeq⟩
  · rintro ⟨p, hp, hbeq⟩
    exact ⟨p, hp, beq_iff_eq.mpr hbeq⟩

lemma cacheGet_isSome (st : MState) (g : String) :
    (cacheGet st g).isSome = cacheHas st g := by
  unfold cacheGet cacheHas
  rcases hfind : st.cache.find? (fun p => p.1 == g) with _ | p
  · have hall : ∀ x ∈ st.cache, ¬ (x.1 == g) = true := List.find?_eq_none.mp hfind
    rw [hfind]
    simp only [Option.map_none', Option.isSome_none]
    symm
    rw [List.any_eq_false]
    exact hall
  · have hp := List.find?_some hfind
    rw [hfind]
    simp only [Option.map_some', Option.isSome_some]
    symm
    rw [List.any_eq_true]
    exact ⟨p, List.mem_of_find?_eq_some hfind, hp⟩

lemma cacheGet_eq_none_of_not_has (st : MState) (g : String)
    (h : cacheHas st g = false) : cacheGet st g = none := by
  have hs := cacheGet_isSome st g
  rw [h] at hs
  exact Option.not_isSome_iff_eq_none.mp (by simp [hs])

lemma cacheGet_some_of_has (st : MState) (g : String)
    (h : cacheHas st g = true) : ∃ i, cacheGet st g = some i := by
  have hs := cacheGet_isSome st g
  rw [h] at hs
  exact Option.isSome_iff_exists.mp hs

lemma collection_exists_iff (st : MState) (g : String) :
    collection_exists st g = true ↔ g ∈ persistedNames st := by
  simp only [collection_exists, List.contains_iff_exists_mem_beq]
  constructor
  · rintro ⟨x, hx, hbeq⟩
    rw [beq_iff_eq.mp hbeq]
    exact hx
  · intro hx
    exact ⟨g, hx, beq_iff_eq.mpr rfl⟩

/-- When the backing collection exists, `load_vectorstore` succeeds, leaves
the persisted store unchanged and at most appends `g` to the cache. -/
lemma load_vectorstore_ok (st : MState) (g : String)
    (h : collection_exists st g = true) :
    ∃ st' i, load_vectorstore st g = .ok (st', i) ∧
      st'.persisted = st.persisted ∧
      (∀ x, cacheHas st' x = true ↔ (cacheHas st x = true ∨ x = g)) := by
  rcases hg : cacheGet st g with _ | i
  · refine ⟨{ st with cache := st.cache ++ [(g, st.nextId)], nextId := st.nextId + 1 }, st.nextId, ?_, rfl, ?_⟩
    · simp [load_vectorstore, h, hg]
    · intro x
      simp only [cacheHas, List.any_append, List.any_cons, List.any_nil, Bool.or_false,
        Bool.or_eq_true]
      constructor
      · rintro (hx | hx)
        · exact Or.inl hx
        · exact Or.inr (beq_iff_eq.mp hx).symm
      · rintro (hx | rfl)
        · exact Or.inl hx
        · exact Or.inr (beq_iff_eq.mpr rfl)
  · refine ⟨st, i, ?_, rfl, ?_⟩
    · simp [load_vectorstore, h, hg]
    · intro x
      constructor
      · exact fun hx => Or.inl hx
      · rintro (hx | rfl)
        · exact hx
        · rw [← cacheGet_isSome, hg]
          rfl

/-- The loading loop of `load_all_vectorstores` succeeds on a list of
existing collections, preserves the persisted store and caches exactly the
old cache plus the listed games. -/
lemma loadAllAux_ok (gs : List String) (st : MState)
    (h : ∀ g ∈ gs, collection_exists st g = true) :
    ∃ st', loadAllAux st gs = .ok st' ∧
      st'.persisted = st.persisted ∧
      (∀ x, cacheHas st' x = true ↔ (cacheHas st x = true ∨ x ∈ gs)) := by
  induction gs generalizing st with
  | nil => exact ⟨st, rfl, rfl, fun x => by simp⟩
  | cons g gs ih =>
    rcases hc : cacheHas st g with _ | _
    · obtain ⟨st₁, i, hload, hpers, hcache⟩ :=
        load_vectorstore_ok st g (h g (List.mem_cons_self g gs))
      have hex₁ : ∀ g' ∈ gs, collection_exists st₁ g' = true := by
        intro g' hg'
        have := h g' (List.mem_cons_of_mem g hg')
        rwa [collection_exists_iff, persistedNames, ← hpers, ← persistedNames,
          ← collection_exists_iff] at this
      obtain ⟨st', hrun, hpers', hcache'⟩ := ih st₁ hex₁
      refine ⟨st', ?_, hpers'.trans hpers, ?_⟩
      · simp only [loadAllAux, hc, hload]
        exact hrun
      · intro x
        rw [hcache' x]
        constructor
        · rintro (hx | hx)
          · rcases (hcache x).mp hx with hx' | rfl
            · exact Or.inl hx'
            · exact Or.inr (List.mem_cons_self _ _)
          · exact Or.inr (List.mem_cons_of_mem g hx)
        · rintro (hx | hx)
          · exact Or.inl ((hcache x).mpr (Or.inl hx))
          · rcases List.mem_cons.mp hx with rfl | hx'
            · exact Or.inl ((hcache x).mpr (Or.inr rfl))
            · exact Or.inr hx'
    · obtain ⟨st', hrun, hpers', hcache'⟩ := ih st (fun g' hg' => h g' (List.mem_cons_of_mem g hg'))
      refine ⟨st', by simp only [loadAllAux, hc]; exact hrun, hpers', ?_⟩
      intro x
      rw [hcache' x]
      constructor
      · rintro (hx | hx)
        · exact Or.inl hx
        · exact Or.inr (List.mem_cons_of_mem g hx)
      · rintro (hx | hx)
        · exact Or.inl hx
        · rcases List.mem_cons.mp hx with rfl | hx'
          · exact Or.inl hc
          · exact Or.inr hx'

/-- Running `load_all_vectorstores` succeeds, preserves the persisted store and
ends with every persisted game cached. -/
lemma load_all_vectorstores_ok (st : MState) :
    ∃ st', load_all_vectorstores st = .ok st' ∧
      st'.persisted = st.persisted ∧
      (∀ x, cacheHas st' x = true ↔ (cacheHas st x = true ∨ x ∈ persistedNames st)) := by
  refine loadAllAux_ok (list_collections st) st ?_
  intro g hg
  exact (collection_exists_iff st g).mpr hg

/-- Searching a game whose handle is cached neither fails nor changes the
state: it just delegates to the backend search. -/
lemma similarity_search_cached (env : Env) (st : MState) (g q : String) (k : Nat)
    (h : cacheHas st g = true) :
    similarity_search env st g q k = .ok (st, env.oracle g q k) := by
  obtain ⟨i, hi⟩ := cacheGet_some_of_has st g h
  simp [similarity_search, h, hi]

/-- Closed form of the `search_all_games` loop over a list of cached games:
the association list of non-empty backend results, in iteration order. -/
lemma searchGames_eq (env : Env) (q : String) (k : Nat) (st : MState)
    (gs : List String) (h : ∀ g ∈ gs, cacheHas st g = true) :
    searchGames env q k st gs = .ok (st, gs.filterMap (fun g =>
      if (env.oracle g q k).isEmpty then none else some (g, env.oracle g q k))) := by
  induction gs with
  | nil => rfl
  | cons g gs ih =>
    have hg := similarity_search_cached env st g q k (h g (List.mem_cons_self g gs))
    have hrest := ih (fun g' hg' => h g' (List.mem_cons_of_mem g hg'))
    simp only [searchGames, hg, hrest, List.filterMap_cons, bind, Except.bind]
    rcases he : (env.oracle g q k).isEmpty with _ | _ <;> simp [he]

/-- Closed form of `search_all_games`: after loading everything, the result
maps each cached game (old cache plus every persisted collection) with
non-empty backend results to those results. -/
lemma search_all_games_spec (env : Env) (st : MState) (q : String) (k : Nat) :
    ∃ st', search_all_games env st q k = .ok (st', allNonEmpty env q k st') ∧
      st'.persisted = st.persisted ∧
      (∀ x, cacheHas st' x = true ↔ (cacheHas st x = true ∨ x ∈ persistedNames st)) := by
  obtain ⟨st', hload, hpers, hcache⟩ := load_all_vectorstores_ok st
  refine ⟨st', ?_, hpers, hcache⟩
  have hall : ∀ g ∈ cacheKeys st', cacheHas st' g = true :=
    fun g hg => (cacheHas_iff_mem_keys st' g).mpr hg
  simp only [search_all_games, hload, bind, Except.bind]
  exact searchGames_eq env q k st' (cacheKeys st') hall

/-- Membership in `sortInsert`. -/
lemma mem_sortInsert (a x : GameResult) (l : List GameResult) :
    x ∈ sortInsert a l ↔ x = a ∨ x ∈ l := by
  induction l with
  | nil => simp [sortInsert]
  | cons b bs ih =>
    unfold sortInsert
    by_cases hle : a.relevance_score ≤ b.relevance_score
    · rw [if_pos hle]
      simp only [List.mem_cons]
    · rw [if_neg hle]
      simp only [List.mem_cons, ih]
      tauto

/-- Membership in `pySort`. -/
lemma mem_pySort (x : GameResult) (l : List GameResult) :
    x ∈ pySort l ↔ x ∈ l := by
  induction l with
  | nil => simp [pySort]
  | cons a as ih =>
    unfold pySort
    rw [mem_sortInsert, ih, List.mem_cons]

/-- Inserting with `sortInsert` preserves sortedness by `relevance_score`. -/
lemma sorted_sortInsert (a : GameResult) (l : List GameResult)
    (h : l.Pairwise (fun x y => x.relevance_score ≤ y.relevance_score)) :
    (sortInsert a l).Pairwise (fun x y => x.relevance_score ≤ y.relevance_score) := by
  induction l with
  | nil => simp [sortInsert]
  | cons b bs ih =>
    rw [List.pairwise_cons] at h
    unfold sortInsert
    by_cases hle : a.relevance_score ≤ b.relevance_score
    · rw [if_pos hle, List.pairwise_cons]
      refine ⟨?_, List.pairwise_cons.mpr h⟩
      intro y hy
      rcases List.mem_cons.mp hy with rfl | hy'
      · exact hle
      · exact le_trans hle (h.1 y hy')
    · rw [if_neg hle, List.pairwise_cons]
      have hba : b.relevance_score ≤ a.relevance_score := le_of_not_le hle
      refine ⟨?_, ih h.2⟩
      intro y hy
      rcases (mem_sortInsert a y bs).mp hy with rfl | hy'
      · exact hba
      · exact h.1 y hy'

/-- Sorting with `pySort` sorts ascending by `relevance_score`. -/
lemma sorted_pySort (l : List GameResult) :
    (pySort l).Pairwise (fun x y => x.relevance_score ≤ y.relevance_score) := by
  induction l with
  | nil => exact List.Pairwise.nil
  | cons a as ih => exact sorted_sortInsert a (pySort as) ih

/-- A lower bound on every score is a lower bound on `bestScore`. -/
lemma le_bestScore (a : ℚ) (l : List ScoredDoc)
    (h : ∀ p ∈ l, a ≤ p.2) : (a : WithTop ℚ) ≤ bestScore l := by
  induction l with
  | nil => exact le_top
  | cons p ps ih =>
    have hp : (a : WithTop ℚ) ≤ (p.2 : WithTop ℚ) :=
      WithTop.coe_le_coe.mpr (h p (List.mem_cons_self p ps))
    have hps := ih (fun q hq => h q (List.mem_cons_of_mem p hq))
    simp only [bestScore, List.map_cons, List.foldr_cons]
    exact le_min hp hps

/-- On an ascending result list, the head's score is the best score. -/
lemma bestScore_of_sorted (d : Document) (s : ℚ) (l : List ScoredDoc)
    (h : ((d, s) :: l).Pairwise (fun x y => x.2 ≤ y.2)) :
    bestScore ((d, s) :: l) = (s : WithTop ℚ) := by
  rw [List.pairwise_cons] at h
  have hlb : (s : WithTop ℚ) ≤ bestScore l := le_bestScore s l (fun p hp => h.1 p hp)
  simp only [bestScore, List.map_cons, List.foldr_cons]
  exact min_eq_left hlb

/-- Closed form of `query_all_games`: one answer per game with non-empty
results (retrieved with the default `k = 3`, since the caller's `k` is not
forwarded), sorted ascending by `relevance_score`. -/
lemma query_all_games_spec (env : Env) (st : MState) (q : String) (k : Nat) :
    ∃ stS, query_all_games env st q k =
        .ok (stS, pySort ((allNonEmpty env q 3 stS).map (fun p => mkGameResult env q p.1 p.2))) ∧
      stS.persisted = st.persisted ∧
      (∀ x, cacheHas stS x = true ↔ (cacheHas st x = true ∨ x ∈ persistedNames st)) := by
  obtain ⟨stS, hS, hpers, hcache⟩ := search_all_games_spec env st q 3
  refine ⟨stS, ?_, hpers, hcache⟩
  simp only [query_all_games, hS, bind, Except.bind]

/-- The count `docCount` only depends on the persisted store. -/
lemma docCount_congr (st st' : MState) (g : String)
    (h : st'.persisted = st.persisted) : docCount st' g = docCount st g := by
  unfold docCount
  rw [h]

/-- The check `collection_exists` only depends on the persisted store. -/
lemma collection_exists_congr (st st' : MState) (g : String)
    (h : st'.persisted = st.persisted) :
    collection_exists st' g = collection_exists st g := by
  unfold collection_exists persistedNames
  rw [h]

lemma from_documents_persisted (st : MState) (g : String) (docs : List Document) :
    (from_documents st g docs).1.persisted = st.persisted ++ [(g, docs)] := by
  unfold from_documents cacheSet
  split <;> rfl

lemma collection_exists_from_documents (st : MState) (g : String) (docs : List Document) :
    collection_exists (from_documents st g docs).1 g = true := by
  rw [collection_exists_iff]
  unfold persistedNames
  rw [from_documents_persisted]
  simp

lemma isEmpty_true_iff {α : Type} (l : List α) : l.isEmpty = true ↔ l = [] := by
  cases l <;> simp

/-! ## Claim theorems -/

/-- Claim C1: `query_all_games` accepts a `k` argument (documented as the
number of documents per game to retrieve) but does not forward it to
`search_all_games`, which therefore always runs with its own default
`k = 3`; consequently the output is identical for every caller-supplied
`k`, contradicting the claim that the caller's `k` is forwarded to the
per-game search. -/
theorem query_all_games_ignores_caller_k (env : Env) (st : MState) (q : String)
    (k k' : Nat) : query_all_games env st q k = query_all_games env st q k' := rfl

/-- Claim C2: `load_documents` stamps the `game` metadata with
`os.path.basename(path).strip(".txt")`; Python's `str.strip` removes a
character *set*, so for the spec's own example path `rules/ticket.txt` the
stored game name is `icke`, not `ticket`. -/
theorem load_documents_game_strip_bug (content : String) :
    (load_documents content "rules/ticket.txt").map (fun d => lookupMeta "game" d.metadata) =
      [some "icke"] ∧ "icke" ≠ "ticket" :=
  ⟨rfl, by decide⟩

/-- Claim C3: when retrieval returns zero chunks, `query` returns the canned
`No relevant documents found for {game}` answer with an empty (or `None`)
sources field and performs zero chat-model invocations. -/
theorem query_empty_short_circuit (env : Env) (st st' : MState) (g q : String)
    (k : Nat) (rr : Bool)
    (h : similarity_search env st g q k = .ok (st', [])) :
    query env st g q k rr =
      .ok (st', [("answer", QVal.str ("No relevant documents found for " ++ g)),
                 ("sources", if rr then QVal.srcs [] else QVal.pyNone)], 0) := by
  simp [query, h, bind, Except.bind]

/-- Witness for C3 at a concrete input: game `B` of the fixture store has an
existing collection with no matching chunks. -/
theorem query_empty_short_circuit_witness :
    similarity_search envW stW "B" "How many players?" 4 = .ok (stWB, []) ∧
    query envW stW "B" "How many players?" 4 true =
      .ok (stWB, [("answer", QVal.str "No relevant documents found for B"),
                  ("sources", QVal.srcs [])], 0) :=
  ⟨rfl, query_empty_short_circuit envW stW stWB "B" "How many players?" 4 true rfl⟩

/-- Claim C10: for a game that is neither cached nor persisted,
`similarity_search` raises `KeyError` from the unguarded handle-map lookup
(not an empty result and not a NotFound-style error). -/
theorem similarity_search_unknown_game_keyError (env : Env) (st : MState)
    (g q : String) (k : Nat)
    (h1 : cacheHas st g = false) (h2 : collection_exists st g = false) :
    similarity_search env st g q k = .error (.keyError g) := by
  have hget := cacheGet_eq_none_of_not_has st g h1
  simp [similarity_search, h1, h2, hget, pure, Except.pure, bind, Except.bind]

/-- Witness for C10 at a concrete input: the fixture store has no game
`poker`. -/
theorem similarity_search_unknown_game_keyError_witness :
    similarity_search envW stW "poker" "How many players?" 3 =
      .error (.keyError "poker") :=
  similarity_search_unknown_game_keyError envW stW "poker" "How many players?" 3
    rfl rfl

/-- Claim C4: the result dict of `query` does *not* carry the `game_name`
key in the empty-retrieval branch — at a concrete empty-retrieval input the
returned keys are exactly `answer` and `sources` — even though the API's
response model (`QueryResponse`) declares `game_name` as required; the key
is present only in the generated-answer branch. -/
theorem query_empty_branch_omits_game_name :
    query envW stW "B" "How do you win?" 4 true =
      .ok (stWB, [("answer", QVal.str "No relevant documents found for B"),
                  ("sources", QVal.srcs [])], 0) ∧
    (query envW stW "B" "How do you win?" 4 true).map
        (fun t => t.2.1.map (fun kv => kv.1)) = .ok ["answer", "sources"] ∧
    (query envW stW "A" "How do you win?" 4 true).map
        (fun t => t.2.1.map (fun kv => kv.1)) = .ok ["answer", "game_name", "sources"] :=
  ⟨rfl, rfl, rfl⟩

/-- Claim C9 (corrected): `_delete_collection` catches every exception, but
the cache eviction sits *after* the backend delete inside the same `try`, so
when the backend delete raises the cached handle is *not* evicted: at a
concrete input with a cached handle and a failing backend, both the
persisted collection and the handle survive. -/
theorem delete_collection_keeps_handle_on_failure :
    cacheHas stCached "chess" = true ∧
    cacheHas (_delete_collection envFail stCached "chess") "chess" = true ∧
    collection_exists (_delete_collection envFail stCached "chess") "chess" = true :=
  ⟨rfl, rfl, rfl⟩

/-- Claim C9 (amended): `_delete_collection` never raises (it is a total
function on states); when the backend delete succeeds it removes the
persisted collection and evicts the cached handle, and when the backend
delete fails the state — cached handle included — is left unchanged. -/
theorem delete_collection_best_effort (env : Env) (st : MState) (g : String) :
    ((env.deleteErr g = false ∧ collection_exists st g = true) →
       collection_exists (_delete_collection env st g) g = false ∧
       cacheHas (_delete_collection env st g) g = false) ∧
    ((env.deleteErr g = true ∨ collection_exists st g = false) →
       _delete_collection env st g = st) := by
  constructor
  · rintro ⟨herr, hex⟩
    unfold _delete_collection client_delete
    rw [herr, hex]
    simp only [Bool.false_or, Bool.not_true]
    constructor
    · rw [collection_exists, persistedNames]
      by_contra hc
      have hmem : g ∈ (List.filter (fun p => p.1 != g) st.persisted).map
          (fun p => p.1) := by
        have : ((List.filter (fun p => p.1 != g) st.persisted).map
            (fun p => p.1)).contains g = true := by
          revert hc
          cases ((List.filter (fun p => p.1 != g) st.persisted).map
            (fun p => p.1)).contains g <;> simp
        simpa [List.contains_iff_exists_mem_beq, beq_iff_eq] using this
      obtain ⟨p, hp, hpg⟩ := List.mem_map.mp hmem
      have := (List.mem_filter.mp hp).2
      rw [hpg] at this
      simp at this
    · rw [cacheHas]
      rw [List.any_eq_false]
      intro p hp
      have := (List.mem_filter.mp hp).2
      simp only [bne_iff_ne, ne_eq] at this
      simp only [beq_iff_eq]
      exact this
  · intro h
    unfold _delete_collection client_delete
    rcases h with herr | hex
    · rw [herr]
      rfl
    · rw [hex]
      simp

/-- Witness for the amended C9 at a concrete input where the backend delete
succeeds. -/
theorem delete_collection_best_effort_witness :
    collection_exists (_delete_collection envW stCached "chess") "chess" = false ∧
    cacheHas (_delete_collection envW stCached "chess") "chess" = false :=
  (delete_collection_best_effort envW stCached "chess").1 ⟨rfl, rfl⟩

/-- Claim C6: every successful `query_all_games` result list is ordered
ascending by `relevance_score` (most relevant first). -/
theorem query_all_games_sorted_ascending (env : Env) (st : MState) (q : String)
    (k : Nat) :
    ∀ st' res, query_all_games env st q k = .ok (st', res) →
      res.Pairwise (fun x y => x.relevance_score ≤ y.relevance_score) := by
  obtain ⟨stS, hq, -, -⟩ := query_all_games_spec env st q k
  intro st' res hok
  rw [hq, Except.ok.injEq, Prod.mk.injEq] at hok
  obtain ⟨rfl, rfl⟩ := hok
  exact sorted_pySort _

/-- Witness for C6: game `B` (best score 1) is returned before game `A`
(best score 5), and the returned list is ascending. -/
theorem query_all_games_sorted_ascending_witness :
    query_all_games envS stW "Who wins?" 4 =
      .ok (stWloaded, [mkGameResult envS "Who wins?" "B" [(docB, 1), (docB, 2)],
                       mkGameResult envS "Who wins?" "A" [(docA, 5)]]) ∧
    List.Pairwise (fun x y => x.relevance_score ≤ y.relevance_score)
      [mkGameResult envS "Who wins?" "B" [(docB, 1), (docB, 2)],
       mkGameResult envS "Who wins?" "A" [(docA, 5)]] :=
  ⟨rfl, query_all_games_sorted_ascending envS stW "Who wins?" 4 stWloaded
    [mkGameResult envS "Who wins?" "B" [(docB, 1), (docB, 2)],
     mkGameResult envS "Who wins?" "A" [(docA, 5)]] rfl⟩

/-- Claim C5: under the precondition that every per-game retrieval result is
in ascending-distance order, every entry of `query_all_games` belongs to a
game with non-empty retrieval and carries `relevance_score` equal to the
best (lowest) score among that game's retrieved chunks (which are retrieved
with `k = 3`, the default the un-forwarded call falls back to). -/
theorem query_all_games_relevance_is_best (env : Env) (st : MState) (q : String)
    (k : Nat)
    (hsort : ∀ g, (env.oracle g q 3).Pairwise (fun x y => x.2 ≤ y.2)) :
    ∀ st' res, query_all_games env st q k = .ok (st', res) →
      ∀ e ∈ res, env.oracle e.game_name q 3 ≠ [] ∧
        e.relevance_score = bestScore (env.oracle e.game_name q 3) := by
  obtain ⟨stS, hq, -, -⟩ := query_all_games_spec env st q k
  intro st' res hok
  rw [hq, Except.ok.injEq, Prod.mk.injEq] at hok
  obtain ⟨rfl, rfl⟩ := hok
  intro e he
  rw [mem_pySort] at he
  obtain ⟨⟨g, r⟩, hmem, rfl⟩ := List.mem_map.mp he
  obtain ⟨g', hg', heq⟩ := List.mem_filterMap.mp hmem
  by_cases hemp : (env.oracle g' q 3).isEmpty = true
  · rw [if_pos hemp] at heq
    cases heq
  · rw [if_neg hemp] at heq
    rw [Option.some.injEq, Prod.mk.injEq] at heq
    obtain ⟨rfl, rfl⟩ := heq
    have hne : env.oracle g' q 3 ≠ [] := by
      intro hnil
      rw [hnil] at hemp
      exact hemp rfl
    refine ⟨hne, ?_⟩
    show (mkGameResult env q g' (env.oracle g' q 3)).relevance_score =
      bestScore (env.oracle g' q 3)
    rcases hr : env.oracle g' q 3 with _ | ⟨⟨d, s⟩, rest⟩
    · exact absurd hr hne
    · have hs := hsort g'
      rw [hr] at hs
      show (s : WithTop ℚ) = bestScore ((d, s) :: rest)
      exact (bestScore_of_sorted d s rest hs).symm

/-- Witness for C5: game `B`'s entry carries the best (lowest) of its two
scores. -/
theorem query_all_games_relevance_is_best_witness :
    envS.oracle "B" "Who wins?" 3 ≠ [] ∧
    (mkGameResult envS "Who wins?" "B" [(docB, 1), (docB, 2)]).relevance_score =
      bestScore (envS.oracle "B" "Who wins?" 3) := by
  have hsort : ∀ g, (envS.oracle g "Who wins?" 3).Pairwise (fun x y => x.2 ≤ y.2) := by
    intro g
    show (if g = "A" then [(docA, (5 : ℚ))]
      else if g = "B" then [(docB, 1), (docB, 2)] else []).Pairwise _
    split
    · simp
    · split
      · refine List.pairwise_cons.mpr ⟨?_, by simp⟩
        intro y hy
        rw [List.mem_singleton] at hy
        subst hy
        norm_num
      · simp
  have h := query_all_games_relevance_is_best envS stW "Who wins?" 4 hsort stWloaded
    [mkGameResult envS "Who wins?" "B" [(docB, 1), (docB, 2)],
     mkGameResult envS "Who wins?" "A" [(docA, 5)]] rfl
    (mkGameResult envS "Who wins?" "B" [(docB, 1), (docB, 2)]) (List.Mem.head _)
  exact h

/-- Claim C8: a game appears in `search_all_games`' mapping iff it is a
known (cached-after-load) game whose backend result is non-empty; and no
entry of `query_all_games` belongs to a game with empty retrieval. -/
theorem search_all_games_nonempty_iff (env : Env) (st : MState) (q : String)
    (k : Nat) :
    (∀ st' out, search_all_games env st q k = .ok (st', out) →
       ∀ g, (∃ r, (g, r) ∈ out) ↔ (g ∈ cacheKeys st' ∧ env.oracle g q k ≠ [])) ∧
    (∀ st' res, query_all_games env st q k = .ok (st', res) →
       ∀ e ∈ res, env.oracle e.game_name q 3 ≠ []) := by
  constructor
  · obtain ⟨stS, hS, -, -⟩ := search_all_games_spec env st q k
    intro st' out hok g
    rw [hS, Except.ok.injEq, Prod.mk.injEq] at hok
    obtain ⟨rfl, rfl⟩ := hok
    constructor
    · rintro ⟨r, hr⟩
      obtain ⟨g', hg', heq⟩ := List.mem_filterMap.mp hr
      by_cases hemp : (env.oracle g' q k).isEmpty = true
      · rw [if_pos hemp] at heq
        cases heq
      · rw [if_neg hemp] at heq
        rw [Option.some.injEq, Prod.mk.injEq] at heq
        obtain ⟨rfl, -⟩ := heq
        refine ⟨hg', ?_⟩
        intro hnil
        rw [hnil] at hemp
        exact hemp rfl
    · rintro ⟨hmem, hne⟩
      have hemp : ¬ ((env.oracle g q k).isEmpty = true) := by
        intro he
        exact hne ((isEmpty_true_iff _).mp he)
      exact ⟨env.oracle g q k,
        List.mem_filterMap.mpr ⟨g, hmem, by rw [if_neg hemp]⟩⟩
  · obtain ⟨stS, hq, -, -⟩ := query_all_games_spec env st q k
    intro st' res hok e he
    rw [hq, Except.ok.injEq, Prod.mk.injEq] at hok
    obtain ⟨rfl, rfl⟩ := hok
    rw [mem_pySort] at he
    obtain ⟨⟨g, r⟩, hmem, rfl⟩ := List.mem_map.mp he
    obtain ⟨g', hg', heq⟩ := List.mem_filterMap.mp hmem
    by_cases hemp : (env.oracle g' q 3).isEmpty = true
    · rw [if_pos hemp] at heq
      cases heq
    · rw [if_neg hemp] at heq
      rw [Option.some.injEq, Prod.mk.injEq] at heq
      obtain ⟨rfl, rfl⟩ := heq
      show env.oracle g' q 3 ≠ []
      intro hnil
      rw [hnil] at hemp
      exact hemp rfl

/-- Witness for C8: in the fixture store only game `A` matches, and the
characterization instantiates at game `A` after loading. -/
theorem search_all_games_nonempty_iff_witness :
    (∃ r, ("A", r) ∈ allNonEmpty envW "How do you win?" 3 stWloaded) ↔
      ("A" ∈ cacheKeys stWloaded ∧ envW.oracle "A" "How do you win?" 3 ≠ []) :=
  (search_all_games_nonempty_iff envW stW "How do you win?" 3).1 stWloaded
    (allNonEmpty envW "How do you win?" 3 stWloaded) rfl "A"

/-- Claim C7: creating with `force_rebuild = false` for an existing
collection is exactly a load — the persisted store and its document counts
are unchanged and the loaded existing handle is returned — and a second
create after any successful create never raises and never changes the
stored document count. -/
theorem create_vectorstore_idempotent (env : Env) (st : MState) (g : String)
    (docs : List Document) :
    (collection_exists st g = true →
       create_vectorstore env st g docs false = load_vectorstore st g ∧
       ∃ st' i, load_vectorstore st g = .ok (st', i) ∧ st'.persisted = st.persisted ∧
         docCount st' g = docCount st g) ∧
    (∀ st₁ i₁, create_vectorstore env st g docs false = .ok (st₁, i₁) →
       ∃ st₂ i₂, create_vectorstore env st₁ g docs false = .ok (st₂, i₂) ∧
         st₂.persisted = st₁.persisted ∧ docCount st₂ g = docCount st₁ g) := by
  have hmain : ∀ s : MState, collection_exists s g = true →
      create_vectorstore env s g docs false = load_vectorstore s g ∧
      ∃ s' i, load_vectorstore s g = .ok (s', i) ∧ s'.persisted = s.persisted ∧
        docCount s' g = docCount s g := by
    intro s hex
    refine ⟨by simp [create_vectorstore, hex], ?_⟩
    obtain ⟨s', i, hload, hpers, -⟩ := load_vectorstore_ok s g hex
    exact ⟨s', i, hload, hpers, docCount_congr s s' g hpers⟩
  constructor
  · exact hmain st
  · intro st₁ i₁ hok
    by_cases hex : collection_exists st g = true
    · obtain ⟨hcl, s', i, hload, hpers, hdc⟩ := hmain st hex
      rw [hcl, hload, Except.ok.injEq, Prod.mk.injEq] at hok
      obtain ⟨rfl, rfl⟩ := hok
      have hex₁ : collection_exists s' g = true := by
        rw [collection_exists_congr st s' g hpers]
        exact hex
      obtain ⟨hcl₁, s₂, i₂, hload₂, hpers₂, hdc₂⟩ := hmain s' hex₁
      exact ⟨s₂, i₂, by rw [hcl₁]; exact hload₂, hpers₂, hdc₂⟩
    · have hexf : collection_exists st g = false := by
        revert hex
        cases collection_exists st g <;> simp
      rw [create_vectorstore] at hok
      rw [hexf] at hok
      simp only [Bool.false_eq_true, if_false, Except.ok.injEq] at hok
      have hst₁ : st₁ = (from_documents st g docs).1 := by
        rw [hok]
      have hex₁ : collection_exists st₁ g = true := by
        rw [hst₁]
        exact collection_exists_from_documents st g docs
      obtain ⟨hcl₁, s₂, i₂, hload₂, hpers₂, hdc₂⟩ := hmain st₁ hex₁
      exact ⟨s₂, i₂, by rw [hcl₁]; exact hload₂, hpers₂, hdc₂⟩

/-- Witness for C7: creating game `A` again over the fixture store is the
no-op load. -/
theorem create_vectorstore_idempotent_witness :
    create_vectorstore envW stW "A" [] false = load_vectorstore stW "A" ∧
    ∃ st' i, load_vectorstore stW "A" = .ok (st', i) ∧ st'.persisted = stW.persisted ∧
      docCount st' "A" = docCount stW "A" :=
  (create_vectorstore_idempotent envW stW "A" []).1 rfl

end BoardgameRAG
